import Mathlib

/-
  Verification of the dynamic_bigint.h arbitrary-precision integer library
  (shallow embedding of src/dynamic_bigint.h, DB_LIMB_BITS = 32).

  A BigInt value is a little-endian limb list plus a sign flag; a handle is
  an `Option BigIntV` where `none` models a NULL pointer.  Machine arithmetic
  is modelled with Nat and explicit `% 2^32` / `% 2^64` reductions exactly
  where the C code truncates.  The two routines whose results pass through
  IEEE doubles (`db_multiply`, `db_mod`, the base-10 branch of
  `db_to_string`, and the random path of `db_random_range`) are modelled
  relationally: the relation records exactly the shape of every value the C
  function can return (each return statement feeds an int64 to
  `db_from_int64`), leaving the double computation itself unconstrained.
  `db_divide`'s repeated-subtraction loop need not terminate (see the spin
  lemmas below), so it is embedded with explicit fuel; `none` at the outer
  level means the fuel ran out, i.e. the C loop has not returned yet.
-/

namespace DB

/-- Limb radix: 2^32, matching db_limb_t = uint32_t. -/
def LIMB_RADIX : Nat := 4294967296

/-- Double-width radix: 2^64, matching db_dlimb_t = uint64_t. -/
def DLIMB_RADIX : Nat := 18446744073709551616

/-- The value part of struct db_bigint_internal: limbs (little-endian,
index 0 least significant) and the sign flag is_negative. -/
structure BigIntV where
  limbs : List Nat
  neg : Bool
deriving DecidableEq

/-- A heap object as seen through a handle: the reference count together
with the value.  Only db_ref_count needs the count. -/
structure BigIntObj where
  ref_count : Nat
  val : BigIntV

/-- Remove trailing (most-significant) zero limbs, as the loop in
db_normalize does. -/
def trimTrailingZeros : List Nat → List Nat
  | [] => []
  | x :: xs =>
    match trimTrailingZeros xs with
    | [] => if x = 0 then [] else [x]
    | ys => x :: ys

/-- db_normalize: drop leading-zero (top) limbs and clear the sign when the
value becomes zero. -/
def db_normalize (v : BigIntV) : BigIntV :=
  let l := trimTrailingZeros v.limbs
  { limbs := l, neg := if l.isEmpty then false else v.neg }

/-- db_from_int32: one limb holding |value| (INT32_MIN included, since
|INT32_MIN| = 2^31 fits a limb), zero gives an empty limb list. -/
def db_from_int32 (value : Int) : BigIntV :=
  { limbs := if value = 0 then [] else [value.natAbs],
    neg := decide (value < 0) }

/-- db_from_int64: split |value| into two 32-bit limbs then normalize
(INT64_MIN included, since |INT64_MIN| = 2^63). -/
def db_from_int64 (value : Int) : BigIntV :=
  db_normalize
    { limbs := [value.natAbs % LIMB_RADIX, value.natAbs / LIMB_RADIX],
      neg := decide (value < 0) }

/-- db_from_uint32: a single limb, zero gives an empty limb list. -/
def db_from_uint32 (value : Nat) : BigIntV :=
  { limbs := if value = 0 then [] else [value], neg := false }

/-- db_from_uint64: split into two 32-bit limbs then normalize. -/
def db_from_uint64 (value : Nat) : BigIntV :=
  db_normalize
    { limbs := [value % LIMB_RADIX, value / LIMB_RADIX], neg := false }

/-- db_zero(), which is db_from_int32(0). -/
def zeroV : BigIntV := db_from_int32 0

/-- db_one(), which is db_from_int32(1). -/
def oneV : BigIntV := db_from_int32 1

/-- The constant two used by db_sqrt, built with db_from_int32(2). -/
def twoV : BigIntV := db_from_int32 2

/-- Magnitude denoted by a little-endian limb list. -/
def magValue : List Nat → Nat
  | [] => 0
  | x :: xs => x + LIMB_RADIX * magValue xs

/-- The signed integer denoted by a BigInt value. -/
def toInt (v : BigIntV) : Int :=
  if v.neg then -(magValue v.limbs : Int) else (magValue v.limbs : Int)

/-- The integer denoted by a handle, none for NULL. -/
def toIntOpt (o : Option BigIntV) : Option Int := o.map toInt

/-- The canonical-value invariant: no trailing zero limb, and an empty limb
list forces a non-negative sign. -/
def canonicalB (v : BigIntV) : Bool :=
  (v.limbs.getLast? != some 0) && (!v.limbs.isEmpty || !v.neg)

/-- Canonical invariant lifted to handles; NULL is trivially fine. -/
def canonicalOptB : Option BigIntV → Bool
  | none => true
  | some v => canonicalB v

/-- The most-significant-first limb comparison loop shared by db_compare and
db_compare_magnitude (both lists already reversed, equal lengths). -/
def cmpLimbsMSB : List Nat → List Nat → Int
  | x :: xs, y :: ys =>
    if x > y then 1 else if x < y then -1 else cmpLimbsMSB xs ys
  | _, _ => 0

/-- db_compare_magnitude: longer limb list wins, else lexicographic from the
most significant limb. -/
def db_compare_magnitude (a b : BigIntV) : Int :=
  if a.limbs.length > b.limbs.length then 1
  else if a.limbs.length < b.limbs.length then -1
  else cmpLimbsMSB a.limbs.reverse b.limbs.reverse

/-- db_compare: 0 when either handle is NULL; a negative sign loses; equal
signs compare magnitudes, inverted for negative operands. -/
def db_compare (a b : Option BigIntV) : Int :=
  match a, b with
  | some a, some b =>
    if a.neg != b.neg then (if a.neg then -1 else 1)
    else if a.limbs.length ≠ b.limbs.length then
      (let mag : Int := if a.limbs.length > b.limbs.length then 1 else -1
       if a.neg then -mag else mag)
    else
      (let mag := cmpLimbsMSB a.limbs.reverse b.limbs.reverse
       if a.neg then -mag else mag)
  | _, _ => 0

/-- db_equal. -/
def db_equal (a b : Option BigIntV) : Bool := decide (db_compare a b = 0)

/-- db_less. -/
def db_less (a b : Option BigIntV) : Bool := decide (db_compare a b < 0)

/-- db_less_equal. -/
def db_less_equal (a b : Option BigIntV) : Bool := decide (db_compare a b ≤ 0)

/-- db_greater. -/
def db_greater (a b : Option BigIntV) : Bool := decide (db_compare a b > 0)

/-- db_greater_equal. -/
def db_greater_equal (a b : Option BigIntV) : Bool := decide (db_compare a b ≥ 0)

/-- db_is_zero: non-NULL with no limbs. -/
def db_is_zero : Option BigIntV → Bool
  | some b => b.limbs.isEmpty
  | none => false

/-- db_is_negative: non-NULL, negative sign and at least one limb. -/
def db_is_negative : Option BigIntV → Bool
  | some b => b.neg && !b.limbs.isEmpty
  | none => false

/-- db_is_positive: non-NULL, non-negative sign and at least one limb. -/
def db_is_positive : Option BigIntV → Bool
  | some b => !b.neg && !b.limbs.isEmpty
  | none => false

/-- Carry propagation over the remaining limbs of the longer operand once
the other is exhausted: sum = carry + limb, store the low 32 bits, carry
the high bits; a final non-zero carry appends one limb. -/
def addCarry : List Nat → Nat → List Nat
  | [], carry => if carry = 0 then [] else [carry]
  | y :: ys, carry =>
    (carry + y) % LIMB_RADIX :: addCarry ys ((carry + y) / LIMB_RADIX)

/-- Same-sign limb addition with carry: sum = carry + a_i + b_i in the
64-bit accumulator, store the low 32 bits, carry the high bits. -/
def addLimbs : List Nat → List Nat → Nat → List Nat
  | [], ys, carry => addCarry ys carry
  | x :: xs, [], carry =>
    (carry + x) % LIMB_RADIX :: addLimbs xs [] ((carry + x) / LIMB_RADIX)
  | x :: xs, y :: ys, carry =>
    (carry + x + y) % LIMB_RADIX ::
      addLimbs xs ys ((carry + x + y) / LIMB_RADIX)

/-- The differing-sign limb subtraction of db_add.  The C code computes
diff = a_i - b_i - borrow in the UNSIGNED 64-bit db_dlimb_t, so the test
`if (diff < 0)` compares an unsigned value and never fires: the borrow is
always 0 and the stored limb is simply the low 32 bits of the wrapped
64-bit difference.  That wrapped difference with borrow 0 is
(a_i + 2^64 - b_i) mod 2^64, truncated to 32 bits. -/
def subLimbsWrap : List Nat → List Nat → List Nat
  | [], _ => []
  | x :: xs, [] =>
    (x + DLIMB_RADIX) % DLIMB_RADIX % LIMB_RADIX :: subLimbsWrap xs []
  | x :: xs, y :: ys =>
    (x + DLIMB_RADIX - y) % DLIMB_RADIX % LIMB_RADIX :: subLimbsWrap xs ys

/-- db_add: NULL on a NULL operand; same signs add magnitudes with carry;
differing signs subtract the smaller magnitude from the larger (with the
non-propagating borrow above) and take the larger operand's sign; both
paths end with db_normalize. -/
def db_add : Option BigIntV → Option BigIntV → Option BigIntV
  | some a, some b =>
    if a.neg == b.neg then
      some (db_normalize { limbs := addLimbs a.limbs b.limbs 0, neg := a.neg })
    else
      let cmp := db_compare_magnitude a b
      let larger := if cmp ≥ 0 then a else b
      let smaller := if cmp ≥ 0 then b else a
      let rneg := if cmp ≥ 0 then a.neg else b.neg
      some (db_normalize
        { limbs := subLimbsWrap larger.limbs smaller.limbs, neg := rneg })
  | _, _ => none

/-- db_negate: copy, flipping the sign only when there is at least one
limb. -/
def db_negate : Option BigIntV → Option BigIntV
  | some a =>
    some { a with neg := if a.limbs.isEmpty then a.neg else !a.neg }
  | none => none

/-- db_subtract: a + (-b), with the NULL checks of the source. -/
def db_subtract : Option BigIntV → Option BigIntV → Option BigIntV
  | some a, some b => db_add (some a) (db_negate (some b))
  | _, _ => none

/-- db_abs: copy; when negative, clear the sign if there is a limb. -/
def db_abs : Option BigIntV → Option BigIntV
  | some a =>
    if a.neg = false then some a
    else some { a with neg := if a.limbs.isEmpty then a.neg else false }
  | none => none

/-- db_copy: a fresh object with the same limbs and sign (value-identical). -/
def db_copy : Option BigIntV → Option BigIntV
  | some a => some a
  | none => none

/-- db_add_int32: NULL check, then convert and db_add. -/
def db_add_int32 (a : Option BigIntV) (b : Int) : Option BigIntV :=
  match a with
  | some a => db_add (some a) (some (db_from_int32 b))
  | none => none

/-- db_subtract_int32: NULL check, then convert and db_subtract. -/
def db_subtract_int32 (a : Option BigIntV) (b : Int) : Option BigIntV :=
  match a with
  | some a => db_subtract (some a) (some (db_from_int32 b))
  | none => none

/-- What db_multiply can return.  The source converts both operands to
double, multiplies, and on EVERY path returns db_from_int64 of an int64
cast of that double; so with non-NULL operands the result is
db_from_int64 v for some int64 v (the double arithmetic itself is not
modelled), and NULL operands give NULL. -/
def db_multiply_spec : Option BigIntV → Option BigIntV → Option BigIntV → Prop
  | some _, some _, r =>
    ∃ v : Int, -(2 ^ 63) ≤ v ∧ v < 2 ^ 63 ∧ r = some (db_from_int64 v)
  | _, _, r => r = none

/-- What db_mod can return: NULL on a NULL operand or a zero divisor;
otherwise the source computes fmod on doubles and on every path returns
db_from_int64 of an int64 cast of the result. -/
def db_mod_spec : Option BigIntV → Option BigIntV → Option BigIntV → Prop
  | some _, some b, r =>
    if b.limbs.isEmpty then r = none
    else ∃ v : Int, -(2 ^ 63) ≤ v ∧ v < 2 ^ 63 ∧ r = some (db_from_int64 v)
  | _, _, r => r = none

/-- The repeated-subtraction loop of db_divide, with fuel: while the
remainder is at least |b|, subtract |b| from it and add one to the
quotient; a NULL produced inside the loop returns NULL.  The outer `none`
means the fuel ran out (the C loop is still running). -/
def db_divide_loop : Nat → Option BigIntV → Option BigIntV → Option BigIntV →
    Option (Option BigIntV)
  | 0, _, _, _ => none
  | fuel + 1, quotient, remainder, absb =>
    if db_greater_equal remainder absb then
      let r2 := db_subtract remainder absb
      let q2 := db_add quotient (some oneV)
      if r2.isNone || q2.isNone then some none
      else db_divide_loop fuel q2 r2 absb
    else some quotient

/-- db_divide with fuel: NULL checks, zero divisor gives NULL, zero
dividend gives zero, equal operands give one, smaller |a| gives zero, else
the repeated-subtraction loop on magnitudes followed by the sign fix
(negative when the operand signs differ and the quotient is non-zero). -/
def db_divide_fuel (fuel : Nat) (a b : Option BigIntV) :
    Option (Option BigIntV) :=
  match a, b with
  | some av, some bv =>
    if db_is_zero (some bv) then some none
    else if db_is_zero (some av) then some (some zeroV)
    else if db_equal (some av) (some bv) then some (some oneV)
    else if db_less (db_abs (some av)) (db_abs (some bv)) then
      some (some zeroV)
    else
      match db_divide_loop fuel (some zeroV) (db_abs (some av))
          (db_abs (some bv)) with
      | none => none
      | some none => some none
      | some (some q) =>
        some (some (if (av.neg != bv.neg) && !q.limbs.isEmpty then
          { q with neg := true } else q))
  | _, _ => some none

/-- The Newton iteration of db_sqrt (at most 100 rounds in the source):
x2 = (x + n/x) / 2, stopping as soon as the update fails or does not
decrease; every db_divide call gets the given fuel, and exhausted fuel
propagates as outer `none`. -/
def db_sqrt_iter : Nat → Nat → Option BigIntV → Option BigIntV →
    Option (Option BigIntV)
  | 0, _, x, _ => some x
  | it + 1, fuel, x, n =>
    match db_divide_fuel fuel n x with
    | none => none
    | some quotient =>
      if quotient.isNone then some x
      else if (db_add x quotient).isNone then some x
      else
        match db_divide_fuel fuel (db_add x quotient) (some twoV) with
        | none => none
        | some xnew =>
          if xnew.isNone then some x
          else if db_greater_equal xnew x then some x
          else db_sqrt_iter it fuel xnew n

/-- db_sqrt with fuel: NULL and negative inputs give NULL, zero gives zero,
one gives one; otherwise start Newton from x0 = n / 2. -/
def db_sqrt_fuel (fuel : Nat) (n : Option BigIntV) : Option (Option BigIntV) :=
  match n with
  | none => some none
  | some nv =>
    if db_is_negative (some nv) then some none
    else if db_is_zero (some nv) then some (some zeroV)
    else if db_equal (some nv) (some oneV) then some (some oneV)
    else
      match db_divide_fuel fuel (some nv) (some twoV) with
      | none => none
      | some none => some none
      | some (some x0) => db_sqrt_iter 100 fuel (some x0) (some nv)

/-- Limb-wise binary bitwise operation up to the longer operand, padding
the shorter with zero limbs. -/
def zipLimbs (f : Nat → Nat → Nat) : List Nat → List Nat → List Nat
  | [], ys => ys.map (fun y => f 0 y)
  | x :: xs, [] => f x 0 :: zipLimbs f xs []
  | x :: xs, y :: ys => f x y :: zipLimbs f xs ys

/-- db_and: limb-wise AND on magnitudes, non-negative result, normalized. -/
def db_and : Option BigIntV → Option BigIntV → Option BigIntV
  | some a, some b =>
    some (db_normalize
      { limbs := zipLimbs (fun x y => x &&& y) a.limbs b.limbs, neg := false })
  | _, _ => none

/-- db_or: limb-wise OR on magnitudes, non-negative result, normalized. -/
def db_or : Option BigIntV → Option BigIntV → Option BigIntV
  | some a, some b =>
    some (db_normalize
      { limbs := zipLimbs (fun x y => x ||| y) a.limbs b.limbs, neg := false })
  | _, _ => none

/-- db_xor: limb-wise XOR on magnitudes, non-negative result, normalized. -/
def db_xor : Option BigIntV → Option BigIntV → Option BigIntV
  | some a, some b =>
    some (db_normalize
      { limbs := zipLimbs (fun x y => x ^^^ y) a.limbs b.limbs, neg := false })
  | _, _ => none

/-- db_not: complement every limb of the magnitude (~l = 2^32-1-l on a
32-bit limb) and append one all-ones limb; non-negative, normalized. -/
def db_not : Option BigIntV → Option BigIntV
  | some a =>
    some (db_normalize
      { limbs := a.limbs.map (fun l => (LIMB_RADIX - 1) - l)
          ++ [LIMB_RADIX - 1],
        neg := false })
  | none => none

/-- The intra-limb pass of db_shift_left for a non-zero bit shift b:
each stored limb is the low 32 bits of (l_i << b) combined with the carry
from the limb below; the final carry is stored one limb above (a zero
carry leaves that limb zero, trimmed by normalize). -/
def shlCarry (b : Nat) : List Nat → Nat → List Nat
  | [], carry => [carry]
  | x :: xs, carry =>
    (((x <<< b) % LIMB_RADIX) ||| carry) :: shlCarry b xs (x >>> (32 - b))

/-- db_shift_left: NULL or zero count copies the input; otherwise insert
bits/32 zero limbs below and shift within limbs by bits % 32; the sign is
preserved and the result normalized. -/
def db_shift_left (a : Option BigIntV) (bits : Nat) : Option BigIntV :=
  match a with
  | none => db_copy none
  | some a =>
    if bits = 0 then db_copy (some a)
    else
      let limb_shift := bits / 32
      let bit_shift := bits % 32
      let body :=
        if bit_shift = 0 then a.limbs else shlCarry bit_shift a.limbs 0
      some (db_normalize
        { limbs := List.replicate limb_shift 0 ++ body, neg := a.neg })

/-- The intra-limb pass of db_shift_right for a non-zero bit shift b:
each limb is its own high bits together with the low bits of the next limb
(zero beyond the end), truncated to 32 bits as the uint32 shift does. -/
def shrCarry (b : Nat) : List Nat → List Nat
  | [] => []
  | x :: xs =>
    ((x >>> b) ||| ((xs.headD 0 <<< (32 - b)) % LIMB_RADIX)) :: shrCarry b xs

/-- db_shift_right: NULL or zero count copies the input; shifting at least
limb_count whole limbs yields zero; otherwise drop bits/32 low limbs and
shift within limbs by bits % 32; the sign is preserved (logical shift on
the magnitude) and the result normalized. -/
def db_shift_right (a : Option BigIntV) (bits : Nat) : Option BigIntV :=
  match a with
  | none => db_copy none
  | some a =>
    if bits = 0 then db_copy (some a)
    else
      let limb_shift := bits / 32
      let bit_shift := bits % 32
      if a.limbs.length ≤ limb_shift then some zeroV
      else
        let kept := a.limbs.drop limb_shift
        let body := if bit_shift = 0 then kept else shrCarry bit_shift kept
        some (db_normalize { limbs := body, neg := a.neg })

/-- db_to_int32 with the out-parameter folded into an Option: `some i`
means the function returned true and wrote i, `none` means false.  Succeeds
only for at most one limb; a negative value may reach |v| = 2^31
(INT32_MIN), a non-negative one 2^31 - 1. -/
def db_to_int32 : Option BigIntV → Option Int
  | none => none
  | some big =>
    match big.limbs with
    | [] => some 0
    | [val] =>
      if big.neg then
        if val > 2 ^ 31 then none else some (-(val : Int))
      else
        if val > 2 ^ 31 - 1 then none else some (val : Int)
    | _ => none

/-- db_to_int64, as db_to_int32 but for up to two limbs and the int64
bounds. -/
def db_to_int64 : Option BigIntV → Option Int
  | none => none
  | some big =>
    match big.limbs with
    | [] => some 0
    | [l0] =>
      if big.neg then
        if l0 > 2 ^ 63 then none else some (-(l0 : Int))
      else
        if l0 > 2 ^ 63 - 1 then none else some (l0 : Int)
    | [l0, l1] =>
      let val := l0 + LIMB_RADIX * l1
      if big.neg then
        if val > 2 ^ 63 then none else some (-(val : Int))
      else
        if val > 2 ^ 63 - 1 then none else some (val : Int)
    | _ => none

/-- What db_to_string can return (as a character list): NULL on a NULL
handle or a base outside 2..36; "0" for zero; for base 10 the source
formats db_to_double with snprintf, so some unspecified string comes back;
for every other base the source returns NULL. -/
def db_to_string_spec : Option BigIntV → Int → Option (List Char) → Prop
  | none, _, out => out = none
  | some big, base, out =>
    if base < 2 ∨ base > 36 then out = none
    else if big.limbs.isEmpty then out = some ['0']
    else if base = 10 then ∃ s : List Char, out = some s
    else out = none

/-- The whitespace test of db_from_string. -/
def isSpace (c : Char) : Bool :=
  c == ' ' || c == '\t' || c == '\n' || c == '\r'

/-- Digit decoding of db_from_string: 0-9, then case-insensitive letters
from value 10. -/
def digitValue (c : Char) : Option Nat :=
  if '0' ≤ c ∧ c ≤ '9' then some (c.toNat - '0'.toNat)
  else if 'a' ≤ c ∧ c ≤ 'z' then some (c.toNat - 'a'.toNat + 10)
  else if 'A' ≤ c ∧ c ≤ 'Z' then some (c.toNat - 'A'.toNat + 10)
  else none

/-- The digit-scanning loop of db_from_string: collect decoded digits,
stopping at the first character that is not a digit or whose value reaches
the base. -/
def countDigits (base : Int) : List Char → List Nat
  | [] => []
  | c :: cs =>
    match digitValue c with
    | none => []
    | some d => if (d : Int) ≥ base then [] else d :: countDigits base cs

/-- The three ways the parsing phase of db_from_string can end: return
NULL (fail), return db_zero() (zero), or enter the Horner loop over the
collected digits with the recorded sign.  The Horner loop itself only
composes db_multiply and db_add on non-NULL values, so it cannot produce
NULL; the sign is applied afterwards exactly when the result has a limb,
which for a non-empty digit list (whose first digit is non-zero, since
leading '0' characters were skipped) is the recorded flag. -/
inductive ParseOutcome where
  | fail : ParseOutcome
  | zero : ParseOutcome
  | digits (neg : Bool) (ds : List Nat) : ParseOutcome
deriving DecidableEq

/-- The control flow of db_from_string up to the Horner loop: reject bad
bases and NULL strings modelled as the empty remainder after whitespace;
read an optional sign; skip leading '0' characters, returning zero when
nothing follows them; collect the digit run, failing when it is empty. -/
def db_from_string_parse (str : List Char) (base : Int) : ParseOutcome :=
  if base < 2 ∨ base > 36 then ParseOutcome.fail
  else
    match str.dropWhile isSpace with
    | [] => ParseOutcome.fail
    | c :: rest =>
      let neg : Bool := c == '-'
      let s2 : List Char := if c == '-' || c == '+' then rest else c :: rest
      let s3 := s2.dropWhile (fun d => d == '0')
      if s3.isEmpty then ParseOutcome.zero
      else
        match countDigits base s3 with
        | [] => ParseOutcome.fail
        | ds => ParseOutcome.digits neg ds

/-- A character is a valid digit for the base. -/
def isValidDigit (base : Int) (c : Char) : Bool :=
  match digitValue c with
  | some d => decide ((d : Int) < base)
  | none => false

/-- The amended parsing contract, written from the corrected claim: after
whitespace an empty string fails; a string exhausted right after the
optional sign and any leading zeros yields zero (so a bare sign parses as
zero, not as a failure); otherwise the longest run of valid digits is
taken, failing only when that run is empty. -/
def fromStringSpec (str : List Char) (base : Int) : ParseOutcome :=
  match str.dropWhile isSpace with
  | [] => ParseOutcome.fail
  | c :: rest =>
    let neg : Bool := c == '-'
    let s2 : List Char := if c == '-' || c == '+' then rest else c :: rest
    let s3 := s2.dropWhile (fun d => d == '0')
    if s3.isEmpty then ParseOutcome.zero
    else
      let run := s3.takeWhile (isValidDigit base)
      if run.isEmpty then ParseOutcome.fail
      else ParseOutcome.digits neg (run.filterMap digitValue)

/-- db_ref_count: 0 for a NULL handle, else the stored count. -/
def db_ref_count : Option BigIntObj → Nat
  | none => 0
  | some b => b.ref_count

/-- db_limb_count: 0 for a NULL handle. -/
def db_limb_count : Option BigIntV → Nat
  | none => 0
  | some b => b.limbs.length

/-- The bit-counting loop of db_bit_length on the top limb: number of
binary digits, i.e. log2 + 1 for a non-zero limb. -/
def limbBits (n : Nat) : Nat := if n = 0 then 0 else Nat.log2 n + 1

/-- db_bit_length: 0 for NULL or zero, else 32 per limb below the top one
plus the bit count of the top limb. -/
def db_bit_length : Option BigIntV → Nat
  | none => 0
  | some big =>
    match big.limbs.reverse with
    | [] => 0
    | high :: lower => 32 * lower.length + limbBits high

/-- What db_random_range can return: NULL on a NULL operand; NULL when
min >= max (the guard precedes any use of the generator); otherwise the
source either exhausts its 100 attempts (NULL) or adds min to a db_mod
result, which is db_from_int64 of some int64. -/
def db_random_range_spec : Option BigIntV → Option BigIntV → Option BigIntV →
    Prop
  | some mn, some mx, r =>
    if db_greater_equal (some mn) (some mx) then r = none
    else r = none ∨ ∃ v : Int, -(2 ^ 63) ≤ v ∧ v < 2 ^ 63 ∧
      r = db_add (some mn) (some (db_from_int64 v))
  | _, _, r => r = none

/-! Helper lemmas. -/

theorem trim_getLast_ne (l : List Nat) :
    (trimTrailingZeros l).getLast? ≠ some 0 := by
  induction l with
  | nil => simp [trimTrailingZeros]
  | cons x xs ih =>
    simp only [trimTrailingZeros]
    cases h : trimTrailingZeros xs with
    | nil =>
      by_cases hx : x = 0
      · simp [hx]
      · simp [hx]
    | cons y ys =>
      rw [List.getLast?_cons_cons]
      rw [h] at ih
      exact ih

theorem canonicalB_normalize (v : BigIntV) :
    canonicalB (db_normalize v) = true := by
  unfold canonicalB db_normalize
  cases h : trimTrailingZeros v.limbs with
  | nil => simp
  | cons y ys =>
    have hg := trim_getLast_ne v.limbs
    rw [h] at hg
    simp [bne_iff_ne, hg]

theorem magValue_trim (l : List Nat) :
    magValue (trimTrailingZeros l) = magValue l := by
  induction l with
  | nil => rfl
  | cons x xs ih =>
    simp only [trimTrailingZeros]
    cases h : trimTrailingZeros xs with
    | nil =>
      rw [h] at ih
      by_cases hx : x = 0
      · simp [hx, magValue, ← ih]
      · simp [hx, magValue, ← ih]
    | cons y ys =>
      rw [h] at ih
      simp only [magValue] at ih ⊢
      rw [ih]

theorem toInt_normalize (v : BigIntV) :
    toInt (db_normalize v) = toInt v := by
  unfold toInt db_normalize
  cases h : trimTrailingZeros v.limbs with
  | nil =>
    have hm := magValue_trim v.limbs
    rw [h] at hm
    simp [magValue] at hm
    simp [← hm, magValue]
  | cons y ys =>
    have hm := magValue_trim v.limbs
    rw [h] at hm
    simp [hm]

theorem toInt_mk_two_limbs (n : Nat) (s : Bool) :
    toInt { limbs := [n % LIMB_RADIX, n / LIMB_RADIX], neg := s } =
      if s then -(n : Int) else (n : Int) := by
  have : magValue [n % LIMB_RADIX, n / LIMB_RADIX] = n := by
    simp [magValue, Nat.mod_add_div]
  simp [toInt, this]

theorem toInt_from_int64 (v : Int) : toInt (db_from_int64 v) = v := by
  unfold db_from_int64
  rw [toInt_normalize, toInt_mk_two_limbs]
  rcases lt_or_le v 0 with h | h
  · have h2 : ((v.natAbs : Int)) = -v :=
      Int.ofNat_natAbs_of_nonpos (le_of_lt h)
    simp [h, h2]
  · have h2 : ((v.natAbs : Int)) = v := Int.natAbs_of_nonneg h
    have h3 : ¬ v < 0 := not_lt.mpr h
    simp [h3, h2]

theorem toInt_from_uint64 (n : Nat) : toInt (db_from_uint64 n) = n := by
  unfold db_from_uint64
  rw [toInt_normalize, toInt_mk_two_limbs]
  simp

theorem db_add_some_eq (x y : BigIntV) :
    ∃ z, db_add (some x) (some y) = some z := by
  unfold db_add
  by_cases h : x.neg == y.neg
  · simp [h]
  · simp [h]

theorem canonicalOptB_add (x y : Option BigIntV) :
    canonicalOptB (db_add x y) = true := by
  match x, y with
  | none, none => rfl
  | none, some y => rfl
  | some x, none => rfl
  | some x, some y =>
    unfold db_add
    by_cases h : x.neg == y.neg
    · simp only [h, if_true]
      exact canonicalB_normalize _
    · simp only [h, if_false, Bool.false_eq_true]
      exact canonicalB_normalize _

theorem canonicalOptB_divide_loop (fuel : Nat) :
    ∀ (q r absb : Option BigIntV) (q2 : Option BigIntV),
      canonicalOptB q = true → db_divide_loop fuel q r absb = some q2 →
      canonicalOptB q2 = true := by
  induction fuel with
  | zero => intro q r absb q2 _ h; exact absurd h (by simp [db_divide_loop])
  | succ n ih =>
    intro q r absb q2 hq h
    rw [db_divide_loop] at h
    by_cases hge : db_greater_equal r absb
    · rw [if_pos hge] at h
      by_cases hn : (db_subtract r absb).isNone || (db_add q (some oneV)).isNone
      · rw [if_pos hn] at h
        cases h
        rfl
      · rw [if_neg hn] at h
        exact ih _ _ _ _ (canonicalOptB_add q (some oneV)) h
    · rw [if_neg hge] at h
      cases h
      exact hq

theorem canonicalB_divide_sign_fix (q : BigIntV) (c : Bool)
    (hq : canonicalB q = true) :
    canonicalB (if c && !q.limbs.isEmpty then { q with neg := true }
      else q) = true := by
  by_cases hc : (c && !q.limbs.isEmpty) = true
  · have hne : q.limbs.isEmpty = false := by
      cases hi : q.limbs.isEmpty
      · rfl
      · rw [hi] at hc; simp at hc
    rw [if_pos hc]
    simp_all [canonicalB]
  · simp [hc, hq]

theorem canonicalOptB_divide (fuel : Nat) (a b : Option BigIntV)
    (q : Option BigIntV) (h : db_divide_fuel fuel a b = some q) :
    canonicalOptB q = true := by
  match a, b with
  | none, _ =>
    simp only [db_divide_fuel] at h
    cases h
    rfl
  | some av, none =>
    simp only [db_divide_fuel] at h
    cases h
    rfl
  | some av, some bv =>
    simp only [db_divide_fuel] at h
    by_cases h1 : db_is_zero (some bv)
    · rw [if_pos h1] at h; cases h; rfl
    rw [if_neg h1] at h
    by_cases h2 : db_is_zero (some av)
    · rw [if_pos h2] at h; cases h; decide
    rw [if_neg h2] at h
    by_cases h3 : db_equal (some av) (some bv)
    · rw [if_pos h3] at h; cases h; decide
    rw [if_neg h3] at h
    by_cases h4 : db_less (db_abs (some av)) (db_abs (some bv))
    · rw [if_pos h4] at h; cases h; decide
    rw [if_neg h4] at h
    cases hl : db_divide_loop fuel (some zeroV) (db_abs (some av))
        (db_abs (some bv)) with
    | none => rw [hl] at h; cases h
    | some q0 =>
      rw [hl] at h
      have hq0 : canonicalOptB q0 = true :=
        canonicalOptB_divide_loop fuel _ _ _ _ (by decide) hl
      cases q0 with
      | none => cases h; rfl
      | some qv =>
        cases h
        exact canonicalB_divide_sign_fix qv _ hq0

theorem canonicalOptB_sqrt_iter (it : Nat) :
    ∀ (fuel : Nat) (x n r : Option BigIntV), canonicalOptB x = true →
      db_sqrt_iter it fuel x n = some r → canonicalOptB r = true := by
  induction it with
  | zero =>
    intro fuel x n r hx h
    simp only [db_sqrt_iter] at h
    cases h
    exact hx
  | succ k ih =>
    intro fuel x n r hx h
    rw [db_sqrt_iter] at h
    split at h
    next => cases h
    next quotient heq =>
      split at h
      next => cases h; exact hx
      next =>
        split at h
        next => cases h; exact hx
        next =>
          split at h
          next => cases h
          next xnew heq2 =>
            split at h
            next => cases h; exact hx
            next =>
              split at h
              next => cases h; exact hx
              next =>
                exact ih fuel xnew n r
                  (canonicalOptB_divide fuel _ _ _ heq2) h

theorem canonicalOptB_sqrt (fuel : Nat) (n r : Option BigIntV)
    (h : db_sqrt_fuel fuel n = some r) : canonicalOptB r = true := by
  match n with
  | none =>
    simp only [db_sqrt_fuel] at h
    cases h
    rfl
  | some nv =>
    simp only [db_sqrt_fuel] at h
    by_cases h1 : db_is_negative (some nv)
    · rw [if_pos h1] at h; cases h; rfl
    rw [if_neg h1] at h
    by_cases h2 : db_is_zero (some nv)
    · rw [if_pos h2] at h; cases h; decide
    rw [if_neg h2] at h
    by_cases h3 : db_equal (some nv) (some oneV)
    · rw [if_pos h3] at h; cases h; decide
    rw [if_neg h3] at h
    cases hd : db_divide_fuel fuel (some nv) (some twoV) with
    | none => rw [hd] at h; cases h
    | some x0 =>
      rw [hd] at h
      cases x0 with
      | none => cases h; rfl
      | some x0v =>
        exact canonicalOptB_sqrt_iter 100 fuel _ _ _
          (canonicalOptB_divide fuel _ _ _ hd) h

theorem buggy_sub_step (e : Nat) :
    db_subtract (some { limbs := [e, 1], neg := false })
      (some { limbs := [2], neg := false }) =
    some { limbs := [(e + DLIMB_RADIX - 2) % DLIMB_RADIX % LIMB_RADIX, 1],
           neg := false } := by
  have h1 : (1 + DLIMB_RADIX) % DLIMB_RADIX % LIMB_RADIX = 1 := by
    norm_num [DLIMB_RADIX, LIMB_RADIX]
  simp only [db_subtract]
  simp [db_add, db_negate, db_compare_magnitude, subLimbsWrap, db_normalize,
    trimTrailingZeros, h1]
  norm_num [DLIMB_RADIX, LIMB_RADIX]

theorem spin_ge (e : Nat) :
    db_greater_equal (some { limbs := [e, 1], neg := false })
      (some { limbs := [2], neg := false }) = true := by
  simp [db_greater_equal, db_compare]

theorem spin_parity (e : Nat) (he : e % 2 = 0) :
    ((e + DLIMB_RADIX - 2) % DLIMB_RADIX % LIMB_RADIX) % 2 = 0 := by
  have hd1 : (2 : Nat) ∣ DLIMB_RADIX := by norm_num [DLIMB_RADIX]
  have hd2 : (2 : Nat) ∣ LIMB_RADIX := by norm_num [LIMB_RADIX]
  rw [Nat.mod_mod_of_dvd _ hd2, Nat.mod_mod_of_dvd _ hd1]
  simp only [DLIMB_RADIX]
  omega

/-- The repeated-subtraction loop of db_divide never terminates on a
two-limb remainder of the form e + 2^32 (e even) with divisor 2: the
non-propagating borrow keeps the top limb at 1 forever, so the remainder
never drops below the divisor. -/
theorem db_divide_loop_spin (fuel : Nat) :
    ∀ (q : BigIntV) (e : Nat), e % 2 = 0 →
      db_divide_loop fuel (some q) (some { limbs := [e, 1], neg := false })
        (some { limbs := [2], neg := false }) = none := by
  induction fuel with
  | zero => intro q e he; rfl
  | succ m ih =>
    intro q e he
    rw [db_divide_loop, if_pos (spin_ge e), buggy_sub_step e]
    obtain ⟨qz, hqz⟩ := db_add_some_eq q oneV
    rw [hqz]
    simp only [Option.isNone_some, Bool.or_self, Bool.false_eq_true,
      if_false]
    exact ih qz _ (spin_parity e he)

/-- db_divide(2^32, 2) runs out of any amount of fuel: the C call never
returns. -/
theorem db_divide_spin_two (fuel : Nat) :
    db_divide_fuel fuel (some { limbs := [0, 1], neg := false })
      (some { limbs := [2], neg := false }) = none := by
  have h := db_divide_loop_spin fuel zeroV 0 rfl
  have habs : db_abs (some { limbs := [0, 1], neg := false }) =
      some { limbs := [0, 1], neg := false } := rfl
  have habs2 : db_abs (some { limbs := [2], neg := false }) =
      some { limbs := [2], neg := false } := rfl
  simp only [db_divide_fuel, habs, habs2, h]
  norm_num [db_is_zero, db_equal, db_compare, db_less, cmpLimbsMSB]

theorem countDigits_eq_takeWhile (base : Int) (l : List Char) :
    countDigits base l =
      (l.takeWhile (isValidDigit base)).filterMap digitValue := by
  induction l with
  | nil => rfl
  | cons c cs ih =>
    simp only [countDigits, List.takeWhile]
    cases hd : digitValue c with
    | none =>
      have hv : isValidDigit base c = false := by simp [isValidDigit, hd]
      simp [hv]
    | some d =>
      by_cases hb : (d : Int) ≥ base
      · have hv : isValidDigit base c = false := by
          simp [isValidDigit, hd]
          omega
        simp [hb, hv]
      · have hv : isValidDigit base c = true := by
          simp [isValidDigit, hd]
          omega
        simp [hb, hv, List.filterMap_cons, hd, ih]

theorem takeWhile_head_valid {base : Int} {l : List Char} {c : Char}
    {t : List Char} (h : l.takeWhile (isValidDigit base) = c :: t) :
    isValidDigit base c = true :=
  List.mem_takeWhile_imp (h ▸ List.mem_cons_self c t)

/-- C6 (amended): for every base in 2..36, db_from_string's parsing phase
follows the amended contract `fromStringSpec`: an all-whitespace or empty
string fails (NULL); a string exhausted right after the optional sign and
any leading zeros yields zero — so a bare "-" or "+" parses as zero, NOT
as a failure, contrary to the original claim; otherwise the longest run of
valid digits for the base is consumed, stopping at the first invalid
character, and only an empty run fails. -/
theorem db_from_string_parse_matches_amended_contract (str : List Char)
    (base : Int) (h2 : 2 ≤ base) (h36 : base ≤ 36) :
    db_from_string_parse str base = fromStringSpec str base := by
  unfold db_from_string_parse fromStringSpec
  rw [if_neg (by omega : ¬(base < 2 ∨ base > 36))]
  cases h1 : str.dropWhile isSpace with
  | nil => simp [h1]
  | cons c rest =>
    simp only [h1]
    by_cases h3 : ((if c == '-' || c == '+' then rest else c :: rest).dropWhile
        (fun d => d == '0')).isEmpty
    · simp only [h3, if_true]
    · simp only [h3, Bool.false_eq_true, if_false]
      rw [countDigits_eq_takeWhile]
      cases hr : ((if c == '-' || c == '+' then rest else
          c :: rest).dropWhile (fun d => d == '0')).takeWhile
          (isValidDigit base) with
      | nil => simp [hr]
      | cons c2 t =>
        have hv : isValidDigit base c2 = true := takeWhile_head_valid hr
        cases hdv : digitValue c2 with
        | none => rw [isValidDigit, hdv] at hv; cases hv
        | some d => simp [hr, List.filterMap_cons, hdv]

theorem canonicalOptB_sub (a b : Option BigIntV) :
    canonicalOptB (db_subtract a b) = true := by
  match a, b with
  | none, none => rfl
  | none, some b => rfl
  | some a, none => rfl
  | some a, some b =>
    simp only [db_subtract]
    exact canonicalOptB_add _ _

theorem canonicalOptB_negate (a : Option BigIntV)
    (ha : canonicalOptB a = true) : canonicalOptB (db_negate a) = true := by
  cases a with
  | none => rfl
  | some v =>
    simp only [db_negate, canonicalOptB, canonicalB] at ha ⊢
    cases hi : v.limbs.isEmpty <;> simp_all

theorem canonicalOptB_abs (a : Option BigIntV)
    (ha : canonicalOptB a = true) : canonicalOptB (db_abs a) = true := by
  cases a with
  | none => rfl
  | some v =>
    simp only [db_abs]
    by_cases hn : v.neg = false
    · simp only [hn, if_true]
      exact ha
    · simp only [hn, if_false]
      simp only [canonicalOptB, canonicalB] at ha ⊢
      cases hi : v.limbs.isEmpty <;> simp_all

theorem canonicalB_from_int32 (v : Int) :
    canonicalB (db_from_int32 v) = true := by
  by_cases hv : v = 0
  · simp [db_from_int32, canonicalB, hv]
  · have : v.natAbs ≠ 0 := Int.natAbs_ne_zero.mpr hv
    simp [db_from_int32, canonicalB, hv, this]

theorem canonicalB_from_uint32 (v : Nat) :
    canonicalB (db_from_uint32 v) = true := by
  by_cases hv : v = 0
  · simp [db_from_uint32, canonicalB, hv]
  · simp [db_from_uint32, canonicalB, hv]

theorem canonicalOptB_mult_spec (a b r : Option BigIntV)
    (h : db_multiply_spec a b r) : canonicalOptB r = true := by
  match a, b with
  | none, none => rw [show r = none from h]; rfl
  | none, some b => rw [show r = none from h]; rfl
  | some a, none => rw [show r = none from h]; rfl
  | some a, some b =>
    obtain ⟨v, _, _, hv⟩ := h
    rw [hv]
    exact canonicalB_normalize _

theorem canonicalOptB_mod_spec (a b r : Option BigIntV)
    (h : db_mod_spec a b r) : canonicalOptB r = true := by
  match a, b with
  | none, none => rw [show r = none from h]; rfl
  | none, some b => rw [show r = none from h]; rfl
  | some a, none => rw [show r = none from h]; rfl
  | some a, some b =>
    simp only [db_mod_spec] at h
    by_cases he : b.limbs.isEmpty = true
    · rw [if_pos he] at h
      rw [h]
      rfl
    · rw [if_neg he] at h
      obtain ⟨v, _, _, hv⟩ := h
      rw [hv]
      exact canonicalB_normalize _

theorem canonicalOptB_shift_left (a : Option BigIntV) (k : Nat)
    (ha : canonicalOptB a = true) :
    canonicalOptB (db_shift_left a k) = true := by
  cases a with
  | none => rfl
  | some v =>
    simp only [db_shift_left]
    by_cases hk : k = 0
    · simp only [hk, if_true]
      exact ha
    · simp only [hk, if_false]
      exact canonicalB_normalize _

theorem canonicalOptB_shift_right (a : Option BigIntV) (k : Nat)
    (ha : canonicalOptB a = true) :
    canonicalOptB (db_shift_right a k) = true := by
  cases a with
  | none => rfl
  | some v =>
    simp only [db_shift_right]
    by_cases hk : k = 0
    · simp only [hk, if_true]
      exact ha
    · simp only [hk, if_false]
      by_cases hl : v.limbs.length ≤ k / 32
      · simp only [hl, if_true]
        decide
      · simp only [hl, if_false]
        exact canonicalB_normalize _

/-! Claim theorems. -/

/-- C1: refuted as the code stands — db_multiply does not return the exact
product.  The source converts both operands to double and on every path
returns db_from_int64 of an int64, so its result magnitude never exceeds
2^63; for a = b = 2^32 every value db_multiply can return differs from the
exact product 2^64 mandated by the claim. -/
theorem db_multiply_double_fallback_inexact (r : Option BigIntV)
    (rv : BigIntV)
    (h : db_multiply_spec (some (db_from_uint64 4294967296))
      (some (db_from_uint64 4294967296)) r)
    (hr : r = some rv) :
    toInt rv ≠ toInt (db_from_uint64 4294967296) *
      toInt (db_from_uint64 4294967296) := by
  obtain ⟨v, hlo, hhi, hv⟩ := h
  rw [hv] at hr
  injection hr with hr2
  rw [← hr2, toInt_from_int64, toInt_from_uint64]
  intro hcontra
  norm_num at hcontra
  omega

/-- Witness for C1: the hypotheses hold at r = some (db_from_int64 0). -/
theorem db_multiply_double_fallback_inexact_witness :
    toInt (db_from_int64 0) ≠ toInt (db_from_uint64 4294967296) *
      toInt (db_from_uint64 4294967296) :=
  db_multiply_double_fallback_inexact (some (db_from_int64 0))
    (db_from_int64 0) ⟨0, by norm_num, by norm_num, rfl⟩ rfl

/-- C2: refuted as the code stands — the truncated-division identity
cannot hold.  For a = 2^63 + 1 and b = 2^63 + 2, db_divide returns 0 (the
magnitude-compare early exit, which this theorem evaluates), so the
identity would force the remainder 2^63 + 1; but db_mod funnels its double
fmod result through db_from_int64, so every value it can return has
magnitude at most 2^63, and a ≠ (a/b)·b + (a mod b) for every possible
db_mod result. -/
theorem db_division_identity_unsatisfiable (r : Option BigIntV)
    (rv : BigIntV)
    (h : db_mod_spec (some (db_from_uint64 9223372036854775809))
      (some (db_from_uint64 9223372036854775810)) r)
    (hr : r = some rv) :
    db_divide_fuel 1 (some (db_from_uint64 9223372036854775809))
      (some (db_from_uint64 9223372036854775810)) = some (some zeroV) ∧
    toInt zeroV * toInt (db_from_uint64 9223372036854775810) + toInt rv ≠
      toInt (db_from_uint64 9223372036854775809) := by
  constructor
  · decide
  · simp only [db_mod_spec] at h
    rw [if_neg (by decide)] at h
    obtain ⟨v, hlo, hhi, hv⟩ := h
    rw [hv] at hr
    injection hr with hr2
    rw [← hr2, toInt_from_int64, toInt_from_uint64, toInt_from_uint64]
    have hz : toInt zeroV = 0 := by decide
    rw [hz]
    intro hcontra
    norm_num at hcontra
    omega

/-- Witness for C2: the hypotheses hold at r = some (db_from_int64 0). -/
theorem db_division_identity_unsatisfiable_witness :
    db_divide_fuel 1 (some (db_from_uint64 9223372036854775809))
      (some (db_from_uint64 9223372036854775810)) = some (some zeroV) ∧
    toInt zeroV * toInt (db_from_uint64 9223372036854775810) +
      toInt (db_from_int64 0) ≠
      toInt (db_from_uint64 9223372036854775809) :=
  db_division_identity_unsatisfiable (some (db_from_int64 0))
    (db_from_int64 0)
    (by rw [db_mod_spec, if_neg (by decide)]
        exact ⟨0, by norm_num, by norm_num, rfl⟩) rfl

/-- C3: refuted — db_add with differing signs does not equal the
mathematical sum when an inter-limb borrow is required.  For a = 2^32 and
b = -1 the code yields 8589934591 instead of 4294967295, because the
borrow test in the source compares an unsigned 64-bit difference against
zero and never fires. -/
theorem db_add_borrow_bug_value :
    toIntOpt (db_add (some (db_from_int64 4294967296))
      (some (db_from_int32 (-1)))) = some 8589934591 ∧
    (8589934591 : Int) ≠ 4294967296 + (-1) := by
  exact ⟨by decide, by decide⟩

/-- C4: refuted — db_add is not associative.  With a = 2^32, b = -1,
c = 1, grouping as (a+b)+c gives 2^33 while a+(b+c) gives 2^32, because
the differing-sign path loses the inter-limb borrow. -/
theorem db_add_not_associative :
    toIntOpt (db_add (db_add (some (db_from_int64 4294967296))
      (some (db_from_int32 (-1)))) (some (db_from_int32 1))) =
      some 8589934592 ∧
    toIntOpt (db_add (some (db_from_int64 4294967296))
      (db_add (some (db_from_int32 (-1))) (some (db_from_int32 1)))) =
      some 4294967296 := by
  exact ⟨by decide, by decide⟩

/-- C5: refuted as the code stands — db_to_string is not exact for all
bases 2..36.  For the value 1 and base 2 every possible db_to_string
result is NULL (the source implements only base 10, via a double and
snprintf), so the string round-trip of the claim is impossible. -/
theorem db_to_string_base2_null (out : Option (List Char))
    (h : db_to_string_spec (some (db_from_int32 1)) 2 out) : out = none := by
  simp only [db_to_string_spec] at h
  rw [if_neg (by norm_num), if_neg (by decide), if_neg (by norm_num)] at h
  exact h

/-- Witness for C5: the hypothesis holds at out = none. -/
theorem db_to_string_base2_null_witness :
    (none : Option (List Char)) = none :=
  db_to_string_base2_null none
    (by rw [db_to_string_spec, if_neg (by norm_num), if_neg (by decide),
          if_neg (by norm_num)])

/-- C6 (counterexample): the string "-" — whitespace-free, an optional
sign and no digits — does NOT fail: db_from_string's parse phase reaches
the return-zero early exit after skipping leading zeros, so the call
returns db_zero(), indistinguishable from parsing "0", refuting the
claim that every empty digit sequence yields a NULL handle. -/
theorem db_from_string_bare_sign_yields_zero :
    db_from_string_parse ['-'] 10 = ParseOutcome.zero := by decide

/-- Witness for the C6 amended theorem at the string "-42x" in base 10. -/
theorem db_from_string_parse_matches_amended_contract_witness :
    db_from_string_parse ['-', '4', '2', 'x'] 10 =
      fromStringSpec ['-', '4', '2', 'x'] 10 :=
  db_from_string_parse_matches_amended_contract ['-', '4', '2', 'x'] 10
    (by norm_num) (by norm_num)

/-- C7 (counterexample): db_divide with a zero divisor RETURNS — a NULL
handle — rather than aborting via an assertion hook; the source contains
no assertion on this path at all, refuting the claim that such calls
never return a value to the caller. -/
theorem db_divide_by_zero_returns_null :
    db_divide_fuel 0 (some oneV) (some zeroV) = some none := by decide

/-- C7 (amended): every checked precondition violation returns a NULL
handle to the caller (fail-soft): division by zero, modulo by zero,
db_sqrt of a negative value, and db_random_range with min ≥ max. -/
theorem db_precondition_violations_return_null (fuel : Nat)
    (a b n mn mx : BigIntV) (r rr : Option BigIntV)
    (hb : db_is_zero (some b) = true)
    (hn : db_is_negative (some n) = true)
    (hge : db_greater_equal (some mn) (some mx) = true) :
    db_divide_fuel fuel (some a) (some b) = some none ∧
    (db_mod_spec (some a) (some b) r → r = none) ∧
    db_sqrt_fuel fuel (some n) = some none ∧
    (db_random_range_spec (some mn) (some mx) rr → rr = none) := by
  refine ⟨?_, ?_, ?_, ?_⟩
  · simp only [db_divide_fuel]
    rw [if_pos hb]
  · intro h
    have hb2 : b.limbs.isEmpty = true := hb
    simp only [db_mod_spec] at h
    rw [if_pos hb2] at h
    exact h
  · simp only [db_sqrt_fuel]
    rw [if_pos hn]
  · intro h
    simp only [db_random_range_spec] at h
    rw [if_pos hge] at h
    exact h

/-- Witness for the C7 amended theorem at concrete violating inputs. -/
theorem db_precondition_violations_return_null_witness :
    db_divide_fuel 0 (some twoV) (some zeroV) = some none ∧
    (db_mod_spec (some twoV) (some zeroV) none →
      (none : Option BigIntV) = none) ∧
    db_sqrt_fuel 0 (some { limbs := [1], neg := true }) = some none ∧
    (db_random_range_spec (some oneV) (some zeroV) none →
      (none : Option BigIntV) = none) :=
  db_precondition_violations_return_null 0 twoV zeroV
    { limbs := [1], neg := true } oneV zeroV none none
    (by decide) (by decide) (by decide)

/-- C8: refuted — db_sqrt does not return the integer square root for
every non-negative input, because for n = 2^32 it never returns at all:
the very first step computes n / 2 by repeated subtraction, and the
non-propagating borrow keeps the remainder's top limb at 1 forever, so
db_divide — and hence db_sqrt — diverges (here: exhausts every amount of
fuel). -/
theorem db_sqrt_diverges_on_two_limb_input (fuel : Nat) :
    db_sqrt_fuel fuel (some (db_from_int64 4294967296)) = none := by
  have hA : db_from_int64 4294967296 = { limbs := [0, 1], neg := false } :=
    by decide
  rw [hA]
  simp only [db_sqrt_fuel]
  rw [if_neg (by decide), if_neg (by decide), if_neg (by decide)]
  have h2 : twoV = { limbs := [2], neg := false } := rfl
  rw [h2, db_divide_spin_two fuel]

/-- C9: confirmed — every value produced by the embedded operations is
canonical: its top limb, if any, is non-zero, and an empty limb sequence
has a non-negative sign.  Covers all constructors, signed addition and
subtraction (also the int32 variants), negation, absolute value, copy,
the bitwise operations and shifts, every possible db_multiply and db_mod
result, and every quotient db_divide and every root db_sqrt return. -/
theorem db_results_canonical (a b : Option BigIntV)
    (ha : canonicalOptB a = true) (hb : canonicalOptB b = true) :
    canonicalOptB (db_add a b) = true ∧
    canonicalOptB (db_subtract a b) = true ∧
    canonicalOptB (db_negate a) = true ∧
    canonicalOptB (db_abs a) = true ∧
    canonicalOptB (db_copy a) = true ∧
    (∀ v : Int, canonicalB (db_from_int32 v) = true) ∧
    (∀ v : Int, canonicalB (db_from_int64 v) = true) ∧
    (∀ v : Nat, canonicalB (db_from_uint32 v) = true) ∧
    (∀ v : Nat, canonicalB (db_from_uint64 v) = true) ∧
    (∀ v : Int, canonicalOptB (db_add_int32 a v) = true) ∧
    (∀ v : Int, canonicalOptB (db_subtract_int32 a v) = true) ∧
    canonicalOptB (db_and a b) = true ∧
    canonicalOptB (db_or a b) = true ∧
    canonicalOptB (db_xor a b) = true ∧
    canonicalOptB (db_not a) = true ∧
    (∀ k : Nat, canonicalOptB (db_shift_left a k) = true) ∧
    (∀ k : Nat, canonicalOptB (db_shift_right a k) = true) ∧
    (∀ r, db_multiply_spec a b r → canonicalOptB r = true) ∧
    (∀ r, db_mod_spec a b r → canonicalOptB r = true) ∧
    (∀ fuel q, db_divide_fuel fuel a b = some q →
      canonicalOptB q = true) ∧
    (∀ fuel r, db_sqrt_fuel fuel a = some r → canonicalOptB r = true) := by
  refine ⟨canonicalOptB_add a b, canonicalOptB_sub a b,
    canonicalOptB_negate a ha, canonicalOptB_abs a ha, ?_, ?_, ?_, ?_, ?_,
    ?_, ?_, ?_, ?_, ?_, ?_, ?_, ?_,
    fun r h => canonicalOptB_mult_spec a b r h,
    fun r h => canonicalOptB_mod_spec a b r h,
    fun fuel q h => canonicalOptB_divide fuel a b q h,
    fun fuel r h => canonicalOptB_sqrt fuel a r h⟩
  · cases a with
    | none => rfl
    | some v => exact ha
  · exact canonicalB_from_int32
  · intro v
    exact canonicalB_normalize _
  · exact canonicalB_from_uint32
  · intro v
    exact canonicalB_normalize _
  · intro v
    cases a with
    | none => rfl
    | some w =>
      simp only [db_add_int32]
      exact canonicalOptB_add _ _
  · intro v
    cases a with
    | none => rfl
    | some w =>
      simp only [db_subtract_int32]
      exact canonicalOptB_sub _ _
  · cases a with
    | none => cases b <;> rfl
    | some v =>
      cases b with
      | none => rfl
      | some w => exact canonicalB_normalize _
  · cases a with
    | none => cases b <;> rfl
    | some v =>
      cases b with
      | none => rfl
      | some w => exact canonicalB_normalize _
  · cases a with
    | none => cases b <;> rfl
    | some v =>
      cases b with
      | none => rfl
      | some w => exact canonicalB_normalize _
  · cases a with
    | none => rfl
    | some v => exact canonicalB_normalize _
  · intro k
    exact canonicalOptB_shift_left a k ha
  · intro k
    exact canonicalOptB_shift_right a k ha

/-- Witness for C9 at a = 1, b = -2. -/
theorem db_results_canonical_witness :
    canonicalOptB (db_add (some oneV) (some (db_from_int32 (-2)))) = true :=
  (db_results_canonical (some oneV) (some (db_from_int32 (-2)))
    (by decide) (by decide)).1

/-- C10: confirmed — every embedded operation tolerates a NULL handle:
the value-returning operations give NULL, db_compare gives 0 (so db_equal
reports a NULL handle equal to anything), the predicates and the
fixed-width conversions report false/failure, db_ref_count gives 0, and
the utility queries give 0. -/
theorem db_null_handle_tolerance (a b : Option BigIntV) :
    db_add none b = none ∧ db_add a none = none ∧
    db_subtract none b = none ∧ db_subtract a none = none ∧
    db_negate none = none ∧ db_abs none = none ∧ db_copy none = none ∧
    (∀ v : Int, db_add_int32 none v = none) ∧
    (∀ v : Int, db_subtract_int32 none v = none) ∧
    (∀ r, db_multiply_spec none b r → r = none) ∧
    (∀ r, db_multiply_spec a none r → r = none) ∧
    (∀ r, db_mod_spec none b r → r = none) ∧
    (∀ r, db_mod_spec a none r → r = none) ∧
    (∀ fuel, db_divide_fuel fuel none b = some none) ∧
    (∀ fuel, db_divide_fuel fuel a none = some none) ∧
    (∀ fuel, db_sqrt_fuel fuel none = some none) ∧
    db_and none b = none ∧ db_and a none = none ∧
    db_or none b = none ∧ db_or a none = none ∧
    db_xor none b = none ∧ db_xor a none = none ∧
    db_not none = none ∧
    (∀ k, db_shift_left none k = none) ∧
    (∀ k, db_shift_right none k = none) ∧
    db_compare none b = 0 ∧ db_compare a none = 0 ∧
    db_equal none b = true ∧ db_equal a none = true ∧
    db_is_zero none = false ∧ db_is_negative none = false ∧
    db_is_positive none = false ∧
    db_to_int32 none = none ∧ db_to_int64 none = none ∧
    (∀ base out, db_to_string_spec none base out → out = none) ∧
    (∀ rr, db_random_range_spec none b rr → rr = none) ∧
    (∀ rr, db_random_range_spec a none rr → rr = none) ∧
    db_ref_count none = 0 ∧ db_bit_length none = 0 ∧
    db_limb_count none = 0 := by
  refine ⟨?_, ?_, ?_, ?_, rfl, rfl, rfl, fun v => rfl, fun v => rfl,
    ?_, ?_, ?_, ?_, ?_, ?_, fun fuel => rfl, ?_, ?_, ?_, ?_, ?_, ?_, rfl,
    fun k => rfl, fun k => rfl, ?_, ?_, ?_, ?_, rfl, rfl, rfl, rfl, rfl,
    ?_, ?_, ?_, rfl, rfl, rfl⟩
  · cases b <;> rfl
  · cases a <;> rfl
  · cases b <;> rfl
  · cases a <;> rfl
  · intro r h
    cases b <;> exact h
  · intro r h
    cases a <;> exact h
  · intro r h
    cases b <;> exact h
  · intro r h
    cases a <;> exact h
  · intro fuel
    cases b <;> rfl
  · intro fuel
    cases a <;> rfl
  · cases b <;> rfl
  · cases a <;> rfl
  · cases b <;> rfl
  · cases a <;> rfl
  · cases b <;> rfl
  · cases a <;> rfl
  · cases b <;> rfl
  · cases a <;> rfl
  · cases b <;> rfl
  · cases a <;> rfl
  · intro base out h
    exact h
  · intro rr h
    cases b <;> exact h
  · intro rr h
    cases a <;> exact h

/-- Witness for C10 at a = b = 1 (the theorem has only inner implication
hypotheses; this instantiates it and extracts the first conjunct). -/
theorem db_null_handle_tolerance_witness :
    db_add none (some oneV) = none :=
  (db_null_handle_tolerance (some oneV) (some oneV)).1

end DB
